import Mathlib

/-!
Shallow embedding of the Patreon membership-history exporter
(`src/content.js`), covering the fetch pagination loop (`fetchYearData`),
the per-creator aggregation (`processBillsData`), the currency formatter
(`formatCurrency`) and the CSV generation (`generateCSV`).

JavaScript `Map` objects (insertion-ordered, `set` overwrites in place,
`get` returns the stored value or `undefined`) are embedded as association
lists with the operations `mapGet?` and `mapSet` below.
-/

namespace PatreonExporter

/-- JavaScript `Map.get`: the value stored at `k`, `none` when absent. -/
def mapGet? {K α : Type} [DecidableEq K] : List (K × α) → K → Option α
  | [], _ => none
  | (k', v) :: rest, k => if k' = k then some v else mapGet? rest k

/-- JavaScript `Map.set`: overwrite in place when the key is present,
append at the end otherwise (insertion order is preserved). -/
def mapSet {K α : Type} [DecidableEq K] : List (K × α) → K → α → List (K × α)
  | [], k, v => [(k, v)]
  | (k', v') :: rest, k, v =>
      if k' = k then (k, v) :: rest else (k', v') :: mapSet rest k v

/-- Attributes of a bill record (`fields[bill]=amount_cents,vat_charge_amount_cents,currency`).
`amount_cents` and `vat_charge_amount_cents` may be absent in the JSON. -/
structure BillAttributes where
  amount_cents : Option Int
  vat_charge_amount_cents : Option Int
  currency : String
deriving DecidableEq, Repr

/-- A record of the response `data` array. `type` is the JSON-API type tag
(`'bill'` for billing records); `campaignId` embeds
`bill.relationships?.campaign?.data?.id` (`none` when the optional chain
yields `undefined`). -/
structure Bill where
  type : String
  campaignId : Option String
  attributes : BillAttributes
deriving DecidableEq, Repr

/-- A record of the response `included` array (`type` tag `'campaign'`),
flattened: `name` and `url` stand for `attributes.name` / `attributes.url`
(`url` may be absent). -/
structure Campaign where
  type : String
  id : String
  name : String
  url : Option String
deriving DecidableEq, Repr

/-! ## Currency formatting (`formatCurrency`, content.js lines 11-39) -/

/-- Modelled from the spec: the currency metadata that the external
`Intl.NumberFormat` collaborator exposes — the number of fraction digits
it uses for a recognized ISO 4217 currency code, `none` when the code is
not recognized (the real constructor throws a `RangeError`, caught by the
fallback branch of `formatCurrency`). -/
def intlFractionDigits (currency : String) : Option Nat :=
  if currency = "USD" ∨ currency = "EUR" ∨ currency = "GBP" ∨
     currency = "AUD" ∨ currency = "CAD" then some 2
  else if currency = "JPY" ∨ currency = "KRW" then some 0
  else if currency = "KWD" ∨ currency = "BHD" ∨ currency = "JOD" then some 3
  else none

/-- Decimal digits of `n` zero-padded on the left to `width` characters. -/
def padLeftZeros (n : Nat) (width : Nat) : String :=
  let s := toString n
  String.mk (List.replicate (width - s.length) '0') ++ s

/-- JavaScript `(amountCents / 100).toFixed(2)` for an integer `amountCents`:
the quotient by 100 rendered with exactly two fraction digits. -/
def toFixedTwoOfCents (amountCents : Int) : String :=
  let n := amountCents.natAbs
  (if amountCents < 0 then "-" else "") ++
    toString (n / 100) ++ "." ++ padLeftZeros (n % 100) 2

/-- Modelled from the spec: the currency symbol the external locale
formatter prefixes for a recognized code. -/
def intlSymbol (currency : String) : String :=
  if currency = "USD" ∨ currency = "AUD" ∨ currency = "CAD" then "$"
  else if currency = "EUR" then "€"
  else if currency = "GBP" then "£"
  else if currency = "JPY" then "¥"
  else currency ++ " "

/-- Modelled from the spec: rendering of `amountCents / 10^digits` with
`digits` fraction digits, as the external locale formatter does (its
thousands-grouping separators are not modelled). -/
def renderFixed (amountCents : Int) (digits : Nat) : String :=
  let n := amountCents.natAbs
  let d := 10 ^ digits
  (if amountCents < 0 then "-" else "") ++
    toString (n / d) ++
    (if digits = 0 then "" else "." ++ padLeftZeros (n % d) digits)

/-- Modelled from the spec: the string the external `Intl.NumberFormat`
collaborator produces for a recognized currency (the `try` branch of
`formatCurrency`): divide the minor-unit integer by `10^digits` and format
as currency. -/
def intlFormatCurrency (currency : String) (digits : Nat) (amountCents : Int) : String :=
  intlSymbol currency ++ renderFixed amountCents digits

/-- The function `formatCurrency(amountCents, currency)`: for a recognized currency the
locale formatter's fraction-digit count determines the divisor and the
locale formatter renders the amount; for an unrecognized currency the
`catch` branch returns `` `${currency} ${(amountCents / 100).toFixed(2)}` ``
(and logs a warning — a side effect not modelled). -/
def formatCurrency (amountCents : Int) (currency : String) : String :=
  match intlFractionDigits currency with
  | some digits => intlFormatCurrency currency digits amountCents
  | none => currency ++ " " ++ toFixedTwoOfCents amountCents

/-! ## Fetcher (`fetchYearData`, content.js lines 59-114) -/

/-- One page of the remote listing endpoint's JSON response: the `data`
array of typed records, the optional `included` array of related records,
and `meta.count` when present (`meta.count` only drives progress
reporting, which is a side effect not modelled). -/
structure Page where
  data : List Bill
  included : Option (List Campaign)
  metaCount : Option Nat
deriving DecidableEq, Repr

/-- Outcome of one `fetch` of a page URL: a parsed page, or a failure
(transport rejection or a non-`ok` HTTP status, both of which throw). -/
inductive Response where
  | page : Page → Response
  | error : String → Response
deriving DecidableEq, Repr

/-- The error `fetchYearData` fails with: the year and offset context the
`catch` block attaches (content.js line 108) together with the thrown
message. -/
structure FetchError where
  year : Nat
  offset : Nat
  message : String
deriving DecidableEq, Repr

/-- The successful result of `fetchYearData`: the accumulated bill-typed
records, the accumulated campaign map, and the number of page requests
issued (the code's `currentPage` counter). -/
structure FetchOk where
  bills : List Bill
  campaigns : List (String × Campaign)
  requests : Nat
deriving DecidableEq, Repr

/-- The expression `data.data.filter(item => item.type === 'bill')` (content.js line 78). -/
def pageBills (p : Page) : List Bill :=
  p.data.filter (fun item => item.type = "bill")

/-- Campaign extraction from one page (content.js lines 82-88): when
`included` is present, its campaign-typed records are `Map.set` into the
accumulator keyed by `id`. -/
def addCampaigns (acc : List (String × Campaign)) (p : Page) : List (String × Campaign) :=
  match p.included with
  | none => acc
  | some inc =>
      (inc.filter (fun item => item.type = "campaign")).foldl
        (fun m c => mapSet m c.id c) acc

/-- The pagination loop of `fetchYearData`, consuming the environment's
responses positionally: request `i` receives `responses[i]`. Each
iteration filters the bill-typed records, accumulates them and the
campaigns, counts the request, and stops after a page whose bill count is
below `pageSize`; otherwise the offset advances by `pageSize` (the
inter-request delay is a timing side effect not modelled). A thrown error
aborts immediately with year/offset context. An exhausted response list
stands for a transport rejection of the next request. -/
def fetchGo (pageSize year : Nat) (offset currentPage : Nat)
    (accBills : List Bill) (accCampaigns : List (String × Campaign)) :
    List Response → Except FetchError FetchOk
  | [] => Except.error ⟨year, offset, "network failure"⟩
  | Response.error msg :: _ => Except.error ⟨year, offset, msg⟩
  | Response.page p :: rest =>
      let bills := pageBills p
      let accBills' := accBills ++ bills
      let accCampaigns' := addCampaigns accCampaigns p
      if bills.length < pageSize then
        Except.ok ⟨accBills', accCampaigns', currentPage + 1⟩
      else
        fetchGo pageSize year (offset + pageSize) (currentPage + 1)
          accBills' accCampaigns' rest

/-- The code's fixed page size (`this.pageSize = 100`). -/
def pageSize : Nat := 100

/-- The function `fetchYearData(year, onProgress)` over a list of environment
responses (`onProgress` is a synchronous side effect with no consumed
return value, not modelled). -/
def fetchYearData (year : Nat) (responses : List Response) : Except FetchError FetchOk :=
  fetchGo pageSize year 0 0 [] [] responses

/-! ## Aggregator (`processBillsData`, content.js lines 135-166) -/

/-- JavaScript `x || 0` on a possibly-absent integer: `undefined` becomes
`0` (and the falsy value `0` stays `0`). -/
def jsOrZero (x : Option Int) : Int := x.getD 0

/-- The combined amount of one bill (content.js line 148):
`(bill.attributes.amount_cents || 0) + (bill.attributes.vat_charge_amount_cents || 0)`. -/
def combinedAmount (attrs : BillAttributes) : Int :=
  jsOrZero attrs.amount_cents + jsOrZero attrs.vat_charge_amount_cents

/-- Creator-reference resolution (content.js lines 140-144): take
`bill.relationships?.campaign?.data?.id`, skip when the chain is
`undefined` or the id is falsy (empty string), then look the id up in the
year's campaign map, skipping when absent. -/
def resolveBill (campaigns : List (String × Campaign)) (b : Bill) : Option Campaign :=
  match b.campaignId with
  | none => none
  | some cid => if cid = "" then none else mapGet? campaigns cid

/-- One entry of the `creatorData` map: display name, the year → summed
minor-unit amount map, and the first-seen currency and campaign URL. -/
structure CreatorEntry where
  name : String
  yearlySpends : List (Nat × Int)
  currency : String
  url : Option String
deriving DecidableEq, Repr

/-- The body of the inner loop of `processBillsData` for one bill:
unresolvable bills are skipped; otherwise the creator entry is created on
first sight (with the bill's currency and the campaign's URL) and the
bill's combined amount is added to the entry's total for `year`. The
code's two consecutive `Map.set` calls on a fresh creator collapse into
the single `mapSet` of the final entry value. -/
def processBill (campaigns : List (String × Campaign)) (year : Nat)
    (acc : List (String × CreatorEntry)) (bill : Bill) :
    List (String × CreatorEntry) :=
  match resolveBill campaigns bill with
  | none => acc
  | some campaign =>
      let creatorName := campaign.name
      let amountCents := combinedAmount bill.attributes
      let base : CreatorEntry :=
        match mapGet? acc creatorName with
        | some creator => creator
        | none => ⟨creatorName, [], bill.attributes.currency, campaign.url⟩
      let currentAmount := jsOrZero (mapGet? base.yearlySpends year)
      mapSet acc creatorName
        { base with yearlySpends := mapSet base.yearlySpends year (currentAmount + amountCents) }

/-- One year's fetch result as consumed by the aggregator:
`billsByYear[year] = { bills, campaigns }`. -/
structure YearData where
  bills : List Bill
  campaigns : List (String × Campaign)
deriving DecidableEq, Repr

/-- The inner loop of `processBillsData` over one year's bills. -/
def processYear (campaigns : List (String × Campaign)) (year : Nat)
    (acc : List (String × CreatorEntry)) (bills : List Bill) :
    List (String × CreatorEntry) :=
  bills.foldl (processBill campaigns year) acc

/-- The function `processBillsData(billsByYear, campaignsByYear)`: fold every year's
bills into the `creatorData` map. Year keys are embedded as `Nat` (the
code round-trips them through strings via `Object.entries` and
`year.toString()`); the `campaignsByYear` parameter is unused by the code
— each bill resolves against its own year's `campaigns`. -/
def processBillsData (billsByYear : List (Nat × YearData)) :
    List (String × CreatorEntry) :=
  billsByYear.foldl (fun acc e => processYear e.2.campaigns e.1 acc e.2.bills) []

/-! ## Reporter (`generateCSV`, content.js lines 169-210) -/

/-- The expression `[...years].sort((a, b) => b - a)`: insertion sort, descending. -/
def insertYearDesc (x : Nat) : List Nat → List Nat
  | [] => [x]
  | y :: ys => if x < y then y :: insertYearDesc x ys else x :: y :: ys

/-- The descending year sort of content.js line 171. -/
def sortYearsDesc : List Nat → List Nat
  | [] => []
  | x :: xs => insertYearDesc x (sortYearsDesc xs)

/-- One element of `creatorsArray` (content.js lines 175-184): a creator
entry spread together with its computed `totalAmountCents`. -/
structure CreatorRow where
  name : String
  yearlySpends : List (Nat × Int)
  currency : String
  url : Option String
  totalAmountCents : Int
deriving DecidableEq, Repr

/-- The `totalAmountCents` of one creator: the sum over the requested years of
`creator.yearlySpends.get(year) || 0` (content.js lines 176-179). -/
def totalSpend (years : List Nat) (e : CreatorEntry) : Int :=
  (years.map (fun y => jsOrZero (mapGet? e.yearlySpends y))).sum

/-- The expression `Array.from(creatorData.values()).map(...)` (content.js lines 175-184):
the creator entries in map insertion order, each with its total. -/
def creatorsArray (creatorData : List (String × CreatorEntry)) (years : List Nat) :
    List CreatorRow :=
  creatorData.map fun p =>
    ⟨p.2.name, p.2.yearlySpends, p.2.currency, p.2.url, totalSpend years p.2⟩

/-- Stable insertion step for the descending-by-total sort: an element
moves past earlier elements only when its total is strictly larger, so
elements with equal totals keep their input order. -/
def insertRowDesc (x : CreatorRow) : List CreatorRow → List CreatorRow
  | [] => [x]
  | y :: ys =>
      if x.totalAmountCents < y.totalAmountCents then y :: insertRowDesc x ys
      else x :: y :: ys

/-- The call `creatorsArray.sort((a, b) => b.totalAmountCents - a.totalAmountCents)`
(content.js line 187): JavaScript `Array.prototype.sort` is stable and
its result with this comparator is the unique stable descending order,
embedded as a stable insertion sort. -/
def sortRowsDesc : List CreatorRow → List CreatorRow
  | [] => []
  | x :: xs => insertRowDesc x (sortRowsDesc xs)

/-- One per-year column of a creator's row (content.js lines 200-203):
`this.formatCurrency(creator.yearlySpends.get(year.toString()) || 0, creator.currency)`. -/
def yearColumn (c : CreatorRow) (y : Nat) : String :=
  formatCurrency (jsOrZero (mapGet? c.yearlySpends y)) c.currency

/-- One data row (content.js lines 192-204): name, currency,
`url || ''`, formatted total, then one formatted column per year in
descending year order. -/
def creatorRow (sortedYears : List Nat) (c : CreatorRow) : List String :=
  [c.name, c.currency, c.url.getD "", formatCurrency c.totalAmountCents c.currency] ++
    sortedYears.map (yearColumn c)

/-- The header row (content.js line 172). -/
def csvHeaders (sortedYears : List Nat) : List String :=
  ["Creator", "Currency", "URL", "Total Spend"] ++
    sortedYears.map (fun y => "Total Spend " ++ toString y)

/-- The `rows` array of `generateCSV`: header row, then one row per
creator sorted by total spend descending. -/
def csvRows (creatorData : List (String × CreatorEntry)) (years : List Nat) :
    List (List String) :=
  let sortedYears := sortYearsDesc years
  csvHeaders sortedYears ::
    (sortRowsDesc (creatorsArray creatorData years)).map (creatorRow sortedYears)

/-- The function `generateCSV(creatorData, years)`:
`rows.map(row => row.flatten(',')).flatten('\n')` (content.js line 209). -/
def generateCSV (creatorData : List (String × CreatorEntry)) (years : List Nat) :
    String :=
  String.intercalate "\n" ((csvRows creatorData years).map (String.intercalate ","))

/-! ## Association-list lemmas -/

theorem mapGet?_mapSet_eq {K α : Type} [DecidableEq K]
    (m : List (K × α)) (k : K) (v : α) :
    mapGet? (mapSet m k v) k = some v := by
  induction m with
  | nil => simp [mapSet, mapGet?]
  | cons hd tl ih =>
      by_cases h : hd.1 = k
      · simp [mapSet, mapGet?, h]
      · simpa [mapSet, mapGet?, h] using ih

theorem mapGet?_mapSet_ne {K α : Type} [DecidableEq K]
    (m : List (K × α)) (k k' : K) (v : α) (hne : k ≠ k') :
    mapGet? (mapSet m k v) k' = mapGet? m k' := by
  induction m with
  | nil => simp [mapSet, mapGet?, hne]
  | cons hd tl ih =>
      by_cases h : hd.1 = k
      · simp [mapSet, mapGet?, h, hne]
      · by_cases h2 : hd.1 = k'
        · simp [mapSet, mapGet?, h, h2, Ne.symm hne]
        · simpa [mapSet, mapGet?, h, h2] using ih

/-- Sum of `f` over the values of an association list. -/
def sumBy {K α : Type} (f : α → Int) (m : List (K × α)) : Int :=
  (m.map (fun p => f p.2)).sum

theorem sumBy_nil {K α : Type} (f : α → Int) : sumBy f ([] : List (K × α)) = 0 := rfl

theorem sumBy_cons {K α : Type} (f : α → Int) (hd : K × α) (tl : List (K × α)) :
    sumBy f (hd :: tl) = f hd.2 + sumBy f tl := by
  simp [sumBy]

/-- Overwriting a key replaces that key's contribution to the value sum. -/
theorem sumBy_mapSet {K α : Type} [DecidableEq K]
    (f : α → Int) (m : List (K × α)) (k : K) (v : α) :
    sumBy f (mapSet m k v) = sumBy f m + f v - ((mapGet? m k).map f).getD 0 := by
  induction m with
  | nil => simp [mapSet, sumBy, mapGet?]
  | cons hd tl ih =>
      by_cases h : hd.1 = k
      · simp only [mapSet, h, if_pos, mapGet?]
        simp [sumBy_cons]
        ring
      · simp only [mapSet, h, if_neg, not_false_iff, mapGet?]
        simp only [sumBy_cons, ih, mapGet?, h, if_neg, not_false_iff]
        ring

/-! ## Aggregation-sum lemmas -/

/-- Sum of all per-year amounts of one creator entry. -/
def spendSum (e : CreatorEntry) : Int := sumBy id e.yearlySpends

/-- Sum of all per-creator per-year totals of the aggregate. -/
def aggTotal (m : List (String × CreatorEntry)) : Int := sumBy spendSum m

/-- What one bill adds to the aggregate's grand total: its combined
amount when its creator reference resolves, `0` otherwise. -/
def billContribution (campaigns : List (String × Campaign)) (b : Bill) : Int :=
  match resolveBill campaigns b with
  | some _ => combinedAmount b.attributes
  | none => 0

theorem processBill_unresolved (campaigns : List (String × Campaign)) (year : Nat)
    (acc : List (String × CreatorEntry)) (b : Bill)
    (h : resolveBill campaigns b = none) :
    processBill campaigns year acc b = acc := by
  simp [processBill, h]

theorem aggTotal_processBill (campaigns : List (String × Campaign)) (year : Nat)
    (acc : List (String × CreatorEntry)) (b : Bill) :
    aggTotal (processBill campaigns year acc b) =
      aggTotal acc + billContribution campaigns b := by
  cases hres : resolveBill campaigns b with
  | none => simp [processBill, billContribution, hres]
  | some campaign =>
      simp only [processBill, billContribution, hres]
      cases hget : mapGet? acc campaign.name with
      | some creator =>
          simp only [hget, aggTotal, sumBy_mapSet, hget, Option.map_some', Option.getD_some]
          have hspend : ∀ ys : List (Nat × Int),
              spendSum { creator with yearlySpends := ys } = sumBy id ys := fun _ => rfl
          rw [hspend, sumBy_mapSet]
          cases hy : mapGet? creator.yearlySpends year <;>
            simp [hy, jsOrZero, spendSum] <;> ring
      | none =>
          simp only [hget, aggTotal, sumBy_mapSet, hget, Option.map_none', Option.getD_none]
          have hspend : ∀ ys : List (Nat × Int),
              spendSum ⟨campaign.name, ys, b.attributes.currency, campaign.url⟩ =
                sumBy id ys := fun _ => rfl
          simp only [hspend, sumBy_mapSet]
          simp [jsOrZero, mapGet?, sumBy, spendSum]

theorem aggTotal_processYear (campaigns : List (String × Campaign)) (year : Nat)
    (acc : List (String × CreatorEntry)) (bills : List Bill) :
    aggTotal (processYear campaigns year acc bills) =
      aggTotal acc + (bills.map (billContribution campaigns)).sum := by
  induction bills generalizing acc with
  | nil => simp [processYear]
  | cons b rest ih =>
      have : processYear campaigns year acc (b :: rest) =
          processYear campaigns year (processBill campaigns year acc b) rest := rfl
      rw [this, ih, aggTotal_processBill]
      simp
      ring

/-- The grand total one year's entry contributes. -/
def yearContributionSum (e : Nat × YearData) : Int :=
  (e.2.bills.map (billContribution e.2.campaigns)).sum

theorem aggTotal_foldYears (input : List (Nat × YearData))
    (acc : List (String × CreatorEntry)) :
    aggTotal (input.foldl (fun acc e => processYear e.2.campaigns e.1 acc e.2.bills) acc) =
      aggTotal acc + (input.map yearContributionSum).sum := by
  induction input generalizing acc with
  | nil => simp
  | cons e rest ih =>
      simp only [List.foldl_cons, ih, aggTotal_processYear, List.map_cons, List.sum_cons,
        yearContributionSum]
      ring

/-- Sum of the combined amounts of the bills whose creator reference
resolves. -/
def resolvableBillsSum (campaigns : List (String × Campaign)) (bills : List Bill) : Int :=
  ((bills.filter (fun b => (resolveBill campaigns b).isSome)).map
    (fun b => combinedAmount b.attributes)).sum

theorem billContribution_sum_eq_resolvable (campaigns : List (String × Campaign))
    (bills : List Bill) :
    (bills.map (billContribution campaigns)).sum = resolvableBillsSum campaigns bills := by
  induction bills with
  | nil => simp [resolvableBillsSum]
  | cons b rest ih =>
      cases hres : resolveBill campaigns b with
      | none =>
          simp only [List.map_cons, List.sum_cons, resolvableBillsSum, List.filter_cons,
            hres, Option.isSome_none, Bool.false_eq_true, if_false, billContribution]
          simpa [resolvableBillsSum, billContribution, hres] using ih
      | some c =>
          simp only [List.map_cons, List.sum_cons, resolvableBillsSum, List.filter_cons,
            hres, Option.isSome_some, if_true, List.map_cons, List.sum_cons]
          rw [ih]
          simp [billContribution, hres, resolvableBillsSum]

/-- The input with every bill whose creator reference does not resolve
removed. -/
def dropUnresolvable (input : List (Nat × YearData)) : List (Nat × YearData) :=
  input.map fun e =>
    (e.1, ⟨e.2.bills.filter (fun b => (resolveBill e.2.campaigns b).isSome), e.2.campaigns⟩)

theorem processYear_filter_resolvable (campaigns : List (String × Campaign)) (year : Nat)
    (acc : List (String × CreatorEntry)) (bills : List Bill) :
    processYear campaigns year acc
        (bills.filter (fun b => (resolveBill campaigns b).isSome)) =
      processYear campaigns year acc bills := by
  induction bills generalizing acc with
  | nil => rfl
  | cons b rest ih =>
      cases hres : resolveBill campaigns b with
      | none =>
          have hstep : processYear campaigns year acc (b :: rest) =
              processYear campaigns year (processBill campaigns year acc b) rest := rfl
          rw [hstep, processBill_unresolved campaigns year acc b hres]
          simpa [List.filter_cons, hres] using ih acc
      | some c =>
          have hstep : processYear campaigns year acc (b :: rest) =
              processYear campaigns year (processBill campaigns year acc b) rest := rfl
          rw [hstep]
          have : (b :: rest).filter (fun b => (resolveBill campaigns b).isSome) =
              b :: rest.filter (fun b => (resolveBill campaigns b).isSome) := by
            simp [List.filter_cons, hres]
          rw [this]
          have hstep2 : processYear campaigns year acc
              (b :: rest.filter (fun b => (resolveBill campaigns b).isSome)) =
              processYear campaigns year (processBill campaigns year acc b)
                (rest.filter (fun b => (resolveBill campaigns b).isSome)) := rfl
          rw [hstep2, ih]

theorem processBillsData_dropUnresolvable (input : List (Nat × YearData)) :
    processBillsData (dropUnresolvable input) = processBillsData input := by
  have main : ∀ (input : List (Nat × YearData)) (acc : List (String × CreatorEntry)),
      (dropUnresolvable input).foldl
          (fun acc e => processYear e.2.campaigns e.1 acc e.2.bills) acc =
        input.foldl (fun acc e => processYear e.2.campaigns e.1 acc e.2.bills) acc := by
    intro input
    induction input with
    | nil => intro acc; rfl
    | cons e rest ih =>
        intro acc
        simp only [dropUnresolvable, List.map_cons, List.foldl_cons]
        rw [processYear_filter_resolvable]
        exact ih _
  exact main input []

/-! ## Per-creator per-year totals -/

/-- The aggregate's total for one creator name and one year, `0` when the
creator or the year is absent. -/
def creatorYearTotal (m : List (String × CreatorEntry)) (name : String) (y : Nat) : Int :=
  match mapGet? m name with
  | none => 0
  | some e => jsOrZero (mapGet? e.yearlySpends y)

/-- What one bill adds to the total of the creator named `name`. -/
def billContributionTo (campaigns : List (String × Campaign)) (name : String)
    (b : Bill) : Int :=
  match resolveBill campaigns b with
  | some c => if c.name = name then combinedAmount b.attributes else 0
  | none => 0

theorem creatorYearTotal_processBill (campaigns : List (String × Campaign)) (yr : Nat)
    (acc : List (String × CreatorEntry)) (b : Bill) (name : String) (y : Nat) :
    creatorYearTotal (processBill campaigns yr acc b) name y =
      creatorYearTotal acc name y +
        (if y = yr then billContributionTo campaigns name b else 0) := by
  cases hres : resolveBill campaigns b with
  | none => simp [processBill, billContributionTo, hres]
  | some campaign =>
      by_cases hn : campaign.name = name
      · subst hn
        cases hget : mapGet? acc campaign.name with
        | some creator =>
            simp only [processBill, hres, hget, creatorYearTotal,
              mapGet?_mapSet_eq, billContributionTo]
            by_cases hy : y = yr
            · subst hy
              simp [mapGet?_mapSet_eq, hget, jsOrZero]
            · rw [mapGet?_mapSet_ne _ _ _ _ (fun h => hy h.symm)]
              simp [hget, hy]
        | none =>
            simp only [processBill, hres, hget, creatorYearTotal,
              mapGet?_mapSet_eq, billContributionTo]
            by_cases hy : y = yr
            · subst hy
              simp [mapGet?_mapSet_eq, jsOrZero, mapGet?]
            · rw [mapGet?_mapSet_ne _ _ _ _ (fun h => hy h.symm)]
              simp [mapGet?, hy, jsOrZero]
      · simp only [processBill, hres, creatorYearTotal,
          mapGet?_mapSet_ne _ _ _ _ hn, billContributionTo, hn, if_false]
        simp [hn]

theorem creatorYearTotal_processYear (campaigns : List (String × Campaign)) (yr : Nat)
    (acc : List (String × CreatorEntry)) (bills : List Bill) (name : String) (y : Nat) :
    creatorYearTotal (processYear campaigns yr acc bills) name y =
      creatorYearTotal acc name y +
        (if y = yr then (bills.map (billContributionTo campaigns name)).sum else 0) := by
  induction bills generalizing acc with
  | nil => simp [processYear]
  | cons b rest ih =>
      have hstep : processYear campaigns yr acc (b :: rest) =
          processYear campaigns yr (processBill campaigns yr acc b) rest := rfl
      rw [hstep, ih, creatorYearTotal_processBill]
      by_cases hy : y = yr
      · simp [hy]; ring
      · simp [hy]

/-- What one year's entry contributes to the total of creator `name` in
year `y`. -/
def yearTotalContribution (name : String) (y : Nat) (e : Nat × YearData) : Int :=
  if y = e.1 then (e.2.bills.map (billContributionTo e.2.campaigns name)).sum else 0

theorem creatorYearTotal_foldYears (input : List (Nat × YearData))
    (acc : List (String × CreatorEntry)) (name : String) (y : Nat) :
    creatorYearTotal
        (input.foldl (fun acc e => processYear e.2.campaigns e.1 acc e.2.bills) acc)
        name y =
      creatorYearTotal acc name y + (input.map (yearTotalContribution name y)).sum := by
  induction input generalizing acc with
  | nil => simp
  | cons e rest ih =>
      simp only [List.foldl_cons, ih, creatorYearTotal_processYear, List.map_cons,
        List.sum_cons, yearTotalContribution]
      ring

theorem creatorYearTotal_processBillsData (input : List (Nat × YearData))
    (name : String) (y : Nat) :
    creatorYearTotal (processBillsData input) name y =
      (input.map (yearTotalContribution name y)).sum := by
  have := creatorYearTotal_foldYears input [] name y
  simpa [processBillsData, creatorYearTotal, mapGet?] using this

/-! ## Fetcher lemmas -/

theorem fetchGo_full_pages (ps year : Nat) (pages : List Page)
    (h : ∀ p ∈ pages, (pageBills p).length = ps) :
    ∀ (off cp : Nat) (ab : List Bill) (ac : List (String × Campaign))
      (rest : List Response),
      fetchGo ps year off cp ab ac (pages.map Response.page ++ rest) =
        fetchGo ps year (off + ps * pages.length) (cp + pages.length)
          (ab ++ (pages.map pageBills).flatten) (pages.foldl addCampaigns ac) rest := by
  induction pages with
  | nil => intro off cp ab ac rest; simp
  | cons p tl ih =>
      intro off cp ab ac rest
      have hp : (pageBills p).length = ps := h p (by simp)
      have htl : ∀ q ∈ tl, (pageBills q).length = ps := fun q hq => h q (by simp [hq])
      simp only [List.map_cons, List.cons_append, fetchGo]
      rw [if_neg (by omega)]
      simp only [List.append_eq]
      rw [ih htl (off + ps) (cp + 1) (ab ++ pageBills p) (addCampaigns ac p) rest]
      have e1 : off + ps + ps * tl.length = off + ps * (tl.length + 1) := by ring
      have e2 : cp + 1 + tl.length = cp + (tl.length + 1) := by ring
      simp [e1, e2, List.foldl_cons]

theorem fetchYearData_last_short (year : Nat) (front : List Page) (last : Page)
    (hfront : ∀ p ∈ front, (pageBills p).length = pageSize)
    (hlast : (pageBills last).length < pageSize) :
    fetchYearData year ((front ++ [last]).map Response.page) =
      Except.ok ⟨((front ++ [last]).map pageBills).flatten,
        (front ++ [last]).foldl addCampaigns [], front.length + 1⟩ := by
  unfold fetchYearData
  rw [show (front ++ [last]).map Response.page =
        front.map Response.page ++ [Response.page last] by simp]
  rw [fetchGo_full_pages pageSize year front hfront 0 0 [] [] [Response.page last]]
  simp only [fetchGo]
  rw [if_pos hlast]
  simp [List.foldl_append]

/-- Sum of the per-page bill counts when every page is full. -/
theorem sum_pageBills_full (n : Nat) (l : List Page)
    (h : ∀ p ∈ l, (pageBills p).length = n) :
    (l.map (fun p => (pageBills p).length)).sum = n * l.length := by
  induction l with
  | nil => simp
  | cons p tl ih =>
      have hp : (pageBills p).length = n := h p (by simp)
      have htl : ∀ q ∈ tl, (pageBills q).length = n := fun q hq => h q (by simp [hq])
      simp [hp, ih htl]
      ring

theorem fetchYearData_error_after_full (year : Nat) (front : List Page)
    (hfront : ∀ p ∈ front, (pageBills p).length = pageSize)
    (msg : String) (rest : List Response) :
    fetchYearData year (front.map Response.page ++ Response.error msg :: rest) =
      Except.error ⟨year, pageSize * front.length, msg⟩ := by
  unfold fetchYearData
  rw [fetchGo_full_pages pageSize year front hfront 0 0 [] [] (Response.error msg :: rest)]
  simp [fetchGo]

/-! ## Sorting lemmas -/

theorem insertRowDesc_perm (x : CreatorRow) (l : List CreatorRow) :
    List.Perm (insertRowDesc x l) (x :: l) := by
  induction l with
  | nil => simp [insertRowDesc]
  | cons y ys ih =>
      by_cases h : x.totalAmountCents < y.totalAmountCents
      · simp only [insertRowDesc, h, if_pos]
        exact (ih.cons y).trans (List.Perm.swap x y ys)
      · simp [insertRowDesc, h]

theorem sortRowsDesc_perm (l : List CreatorRow) : List.Perm (sortRowsDesc l) l := by
  induction l with
  | nil => simp [sortRowsDesc]
  | cons x xs ih =>
      exact (insertRowDesc_perm x (sortRowsDesc xs)).trans (ih.cons x)

theorem insertRowDesc_pairwise (x : CreatorRow) (l : List CreatorRow)
    (h : l.Pairwise (fun a b => b.totalAmountCents ≤ a.totalAmountCents)) :
    (insertRowDesc x l).Pairwise (fun a b => b.totalAmountCents ≤ a.totalAmountCents) := by
  induction l with
  | nil => simp [insertRowDesc]
  | cons y ys ih =>
      rcases List.pairwise_cons.mp h with ⟨hy, hys⟩
      by_cases hlt : x.totalAmountCents < y.totalAmountCents
      · simp only [insertRowDesc, hlt, if_pos]
        refine List.pairwise_cons.mpr ⟨?_, ih hys⟩
        intro z hz
        have hz' : z = x ∨ z ∈ ys :=
          List.mem_cons.mp ((insertRowDesc_perm x ys).mem_iff.mp hz)
        rcases hz' with rfl | hz'
        · exact le_of_lt hlt
        · exact hy z hz'
      · simp only [insertRowDesc, hlt, if_neg, not_false_iff]
        refine List.pairwise_cons.mpr ⟨?_, h⟩
        intro z hz
        rcases List.mem_cons.mp hz with rfl | hz'
        · exact le_of_not_lt hlt
        · exact le_trans (hy z hz') (le_of_not_lt hlt)

theorem sortRowsDesc_pairwise (l : List CreatorRow) :
    (sortRowsDesc l).Pairwise (fun a b => b.totalAmountCents ≤ a.totalAmountCents) := by
  induction l with
  | nil => simp [sortRowsDesc]
  | cons x xs ih => exact insertRowDesc_pairwise x (sortRowsDesc xs) ih

theorem filter_insertRowDesc (x : CreatorRow) (l : List CreatorRow) (t : Int) :
    (insertRowDesc x l).filter (fun r => decide (r.totalAmountCents = t)) =
      if x.totalAmountCents = t then
        x :: l.filter (fun r => decide (r.totalAmountCents = t))
      else l.filter (fun r => decide (r.totalAmountCents = t)) := by
  induction l with
  | nil => by_cases hx : x.totalAmountCents = t <;> simp [insertRowDesc, hx]
  | cons y ys ih =>
      by_cases hlt : x.totalAmountCents < y.totalAmountCents
      · have hstep : insertRowDesc x (y :: ys) = y :: insertRowDesc x ys := by
          simp [insertRowDesc, hlt]
        rw [hstep, List.filter_cons, List.filter_cons, ih]
        by_cases hx : x.totalAmountCents = t
        · have hy : ¬ y.totalAmountCents = t := by omega
          simp [hx, hy]
        · simp [hx]
      · have hstep : insertRowDesc x (y :: ys) = x :: y :: ys := by
          simp [insertRowDesc, hlt]
        rw [hstep, List.filter_cons]
        by_cases hx : x.totalAmountCents = t <;> simp [hx]

/-- Stability of the descending sort: rows with any given total keep
their input order. -/
theorem sortRowsDesc_stable (l : List CreatorRow) (t : Int) :
    (sortRowsDesc l).filter (fun r => decide (r.totalAmountCents = t)) =
      l.filter (fun r => decide (r.totalAmountCents = t)) := by
  induction l with
  | nil => rfl
  | cons x xs ih =>
      show (insertRowDesc x (sortRowsDesc xs)).filter _ = _
      rw [filter_insertRowDesc]
      by_cases hx : x.totalAmountCents = t <;> simp [hx, ih, List.filter_cons]

theorem insertYearDesc_perm (x : Nat) (l : List Nat) :
    List.Perm (insertYearDesc x l) (x :: l) := by
  induction l with
  | nil => simp [insertYearDesc]
  | cons y ys ih =>
      by_cases h : x < y
      · simp only [insertYearDesc, h, if_pos]
        exact (ih.cons y).trans (List.Perm.swap x y ys)
      · simp [insertYearDesc, h]

theorem sortYearsDesc_perm (l : List Nat) : List.Perm (sortYearsDesc l) l := by
  induction l with
  | nil => simp [sortYearsDesc]
  | cons x xs ih =>
      exact (insertYearDesc_perm x (sortYearsDesc xs)).trans (ih.cons x)

theorem insertYearDesc_pairwise (x : Nat) (l : List Nat)
    (h : l.Pairwise (fun a b => b ≤ a)) :
    (insertYearDesc x l).Pairwise (fun a b => b ≤ a) := by
  induction l with
  | nil => simp [insertYearDesc]
  | cons y ys ih =>
      rcases List.pairwise_cons.mp h with ⟨hy, hys⟩
      by_cases hlt : x < y
      · simp only [insertYearDesc, hlt, if_pos]
        refine List.pairwise_cons.mpr ⟨?_, ih hys⟩
        intro z hz
        have hz' : z = x ∨ z ∈ ys :=
          List.mem_cons.mp ((insertYearDesc_perm x ys).mem_iff.mp hz)
        rcases hz' with rfl | hz'
        · exact le_of_lt hlt
        · exact hy z hz'
      · simp only [insertYearDesc, hlt, if_neg, not_false_iff]
        refine List.pairwise_cons.mpr ⟨?_, h⟩
        intro z hz
        rcases List.mem_cons.mp hz with rfl | hz'
        · exact le_of_not_lt hlt
        · exact le_trans (hy z hz') (le_of_not_lt hlt)

theorem sortYearsDesc_pairwise (l : List Nat) :
    (sortYearsDesc l).Pairwise (fun a b => b ≤ a) := by
  induction l with
  | nil => simp [sortYearsDesc]
  | cons x xs ih => exact insertYearDesc_pairwise x (sortYearsDesc xs) ih

/-- On a duplicate-free year list the descending sort is strictly
descending. -/
theorem sortYearsDesc_strict (l : List Nat) (h : l.Nodup) :
    (sortYearsDesc l).Pairwise (fun a b => a > b) := by
  have hnd : (sortYearsDesc l).Nodup := ((sortYearsDesc_perm l).nodup_iff).mpr h
  have hle := sortYearsDesc_pairwise l
  exact (hnd.and hle).imp (fun hab => lt_of_le_of_ne hab.2 (fun he => hab.1 he.symm))

/-! ## First-seen currency and URL -/

/-- The first bill of the list whose creator reference resolves to the
creator named `name`, together with its campaign, in processing order. -/
def firstResolvingIn (campaigns : List (String × Campaign)) (name : String) :
    List Bill → Option (Bill × Campaign)
  | [] => none
  | b :: rest =>
      match resolveBill campaigns b with
      | some c =>
          if c.name = name then some (b, c) else firstResolvingIn campaigns name rest
      | none => firstResolvingIn campaigns name rest

/-- The first bill across all year entries (in processing order) whose
creator reference resolves to the creator named `name`. -/
def firstResolving (name : String) : List (Nat × YearData) → Option (Bill × Campaign)
  | [] => none
  | e :: rest =>
      match firstResolvingIn e.2.campaigns name e.2.bills with
      | some r => some r
      | none => firstResolving name rest

theorem processBill_preserves_header (campaigns : List (String × Campaign)) (yr : Nat)
    (acc : List (String × CreatorEntry)) (b : Bill) (name : String) (e : CreatorEntry)
    (h : mapGet? acc name = some e) :
    ∃ e', mapGet? (processBill campaigns yr acc b) name = some e' ∧
      e'.currency = e.currency ∧ e'.url = e.url := by
  cases hres : resolveBill campaigns b with
  | none => exact ⟨e, by simp [processBill, hres, h]⟩
  | some campaign =>
      by_cases hn : campaign.name = name
      · subst hn
        refine ⟨{ e with yearlySpends := mapSet e.yearlySpends yr (jsOrZero (mapGet? e.yearlySpends yr) + combinedAmount b.attributes) }, ?_, rfl, rfl⟩
        simp only [processBill, hres, h]
        exact mapGet?_mapSet_eq _ _ _
      · refine ⟨e, ?_, rfl, rfl⟩
        simp only [processBill, hres]
        rw [mapGet?_mapSet_ne _ _ _ _ hn]
        exact h

theorem processBill_creates (campaigns : List (String × Campaign)) (yr : Nat)
    (acc : List (String × CreatorEntry)) (b : Bill) (name : String) (c : Campaign)
    (hacc : mapGet? acc name = none)
    (hres : resolveBill campaigns b = some c) (hn : c.name = name) :
    ∃ e', mapGet? (processBill campaigns yr acc b) name = some e' ∧
      e'.currency = b.attributes.currency ∧ e'.url = c.url := by
  subst hn
  refine ⟨{ name := c.name,
            yearlySpends := mapSet ([] : List (Nat × Int)) yr
              (jsOrZero (mapGet? ([] : List (Nat × Int)) yr) + combinedAmount b.attributes),
            currency := b.attributes.currency, url := c.url }, ?_, rfl, rfl⟩
  simp only [processBill, hres, hacc]
  exact mapGet?_mapSet_eq _ _ _

theorem processBill_misses (campaigns : List (String × Campaign)) (yr : Nat)
    (acc : List (String × CreatorEntry)) (b : Bill) (name : String)
    (hacc : mapGet? acc name = none)
    (hmiss : ∀ c, resolveBill campaigns b = some c → c.name ≠ name) :
    mapGet? (processBill campaigns yr acc b) name = none := by
  cases hres : resolveBill campaigns b with
  | none => simpa [processBill, hres] using hacc
  | some campaign =>
      have hn : campaign.name ≠ name := hmiss campaign hres
      simp only [processBill, hres]
      rw [mapGet?_mapSet_ne _ _ _ _ hn]
      exact hacc

theorem processYear_preserves_header (campaigns : List (String × Campaign)) (yr : Nat)
    (name : String) :
    ∀ (bills : List Bill) (acc : List (String × CreatorEntry)) (e : CreatorEntry),
      mapGet? acc name = some e →
      ∃ e', mapGet? (processYear campaigns yr acc bills) name = some e' ∧
        e'.currency = e.currency ∧ e'.url = e.url := by
  intro bills
  induction bills with
  | nil => intro acc e h; exact ⟨e, h, rfl, rfl⟩
  | cons b rest ih =>
      intro acc e h
      obtain ⟨e₁, h₁, hc₁, hu₁⟩ := processBill_preserves_header campaigns yr acc b name e h
      obtain ⟨e₂, h₂, hc₂, hu₂⟩ := ih (processBill campaigns yr acc b) e₁ h₁
      exact ⟨e₂, h₂, hc₂.trans hc₁, hu₂.trans hu₁⟩

theorem processYear_first_header (campaigns : List (String × Campaign)) (yr : Nat)
    (name : String) :
    ∀ (bills : List Bill) (acc : List (String × CreatorEntry)) (b : Bill) (c : Campaign),
      mapGet? acc name = none →
      firstResolvingIn campaigns name bills = some (b, c) →
      ∃ e', mapGet? (processYear campaigns yr acc bills) name = some e' ∧
        e'.currency = b.attributes.currency ∧ e'.url = c.url := by
  intro bills
  induction bills with
  | nil => intro acc b c _ hfirst; simp [firstResolvingIn] at hfirst
  | cons b₀ rest ih =>
      intro acc b c hacc hfirst
      cases hres : resolveBill campaigns b₀ with
      | some c₀ =>
          by_cases hn : c₀.name = name
          · simp only [firstResolvingIn, hres, hn, if_pos, Option.some.injEq,
              Prod.mk.injEq] at hfirst
            obtain ⟨rfl, rfl⟩ := hfirst
            obtain ⟨e₁, h₁, hc₁, hu₁⟩ :=
              processBill_creates campaigns yr acc b₀ name c₀ hacc hres hn
            obtain ⟨e₂, h₂, hc₂, hu₂⟩ :=
              processYear_preserves_header campaigns yr name rest _ e₁ h₁
            exact ⟨e₂, h₂, hc₂.trans hc₁, hu₂.trans hu₁⟩
          · have hacc' : mapGet? (processBill campaigns yr acc b₀) name = none :=
              processBill_misses campaigns yr acc b₀ name hacc
                (fun c' hc' => by
                  rw [hres] at hc'
                  injection hc' with h
                  subst h
                  exact hn)
            have hfirst' : firstResolvingIn campaigns name rest = some (b, c) := by
              simpa [firstResolvingIn, hres, hn] using hfirst
            exact ih (processBill campaigns yr acc b₀) b c hacc' hfirst'
      | none =>
          have hacc' : mapGet? (processBill campaigns yr acc b₀) name = none := by
            rw [processBill_unresolved campaigns yr acc b₀ hres]; exact hacc
          have hfirst' : firstResolvingIn campaigns name rest = some (b, c) := by
            simpa [firstResolvingIn, hres] using hfirst
          exact ih (processBill campaigns yr acc b₀) b c hacc' hfirst'

theorem processYear_none (campaigns : List (String × Campaign)) (yr : Nat)
    (name : String) (bills : List Bill) (acc : List (String × CreatorEntry))
    (h : mapGet? (processYear campaigns yr acc bills) name = none) :
    mapGet? acc name = none ∧ firstResolvingIn campaigns name bills = none := by
  constructor
  · cases hacc : mapGet? acc name with
    | none => rfl
    | some e =>
        obtain ⟨e', h', _, _⟩ :=
          processYear_preserves_header campaigns yr name bills acc e hacc
        rw [h'] at h; exact absurd h (by simp)
  · cases hfirst : firstResolvingIn campaigns name bills with
    | none => rfl
    | some r =>
        have hacc : mapGet? acc name = none := by
          cases hacc : mapGet? acc name with
          | none => rfl
          | some e =>
              obtain ⟨e', h', _, _⟩ :=
                processYear_preserves_header campaigns yr name bills acc e hacc
              rw [h'] at h; exact absurd h (by simp)
        obtain ⟨e', h', _, _⟩ :=
          processYear_first_header campaigns yr name bills acc r.1 r.2 hacc
            (by rw [hfirst])
        rw [h'] at h; exact absurd h (by simp)

theorem processYear_header_src (campaigns : List (String × Campaign)) (yr : Nat)
    (name : String) :
    ∀ (bills : List Bill) (acc : List (String × CreatorEntry)) (e : CreatorEntry),
      mapGet? (processYear campaigns yr acc bills) name = some e →
      (∃ e₀, mapGet? acc name = some e₀ ∧ e.currency = e₀.currency ∧ e.url = e₀.url) ∨
      (mapGet? acc name = none ∧
        ∃ b c, firstResolvingIn campaigns name bills = some (b, c) ∧
          e.currency = b.attributes.currency ∧ e.url = c.url) := by
  intro bills
  induction bills with
  | nil => intro acc e h; exact Or.inl ⟨e, h, rfl, rfl⟩
  | cons b₀ rest ih =>
      intro acc e h
      rcases ih (processBill campaigns yr acc b₀) e h with
        ⟨e₁, hget1, hc1, hu1⟩ | ⟨hnone1, b, c, hfirst, hcb, hub⟩
      · cases hacc : mapGet? acc name with
        | some e₀ =>
            obtain ⟨e', h', hc', hu'⟩ :=
              processBill_preserves_header campaigns yr acc b₀ name e₀ hacc
            rw [h'] at hget1
            injection hget1 with he
            subst he
            exact Or.inl ⟨e₀, rfl, hc1.trans hc', hu1.trans hu'⟩
        | none =>
            cases hres : resolveBill campaigns b₀ with
            | some c₀ =>
                by_cases hn : c₀.name = name
                · obtain ⟨e', h', hc', hu'⟩ :=
                    processBill_creates campaigns yr acc b₀ name c₀ hacc hres hn
                  rw [h'] at hget1
                  injection hget1 with he
                  subst he
                  refine Or.inr ⟨rfl, b₀, c₀, ?_, hc1.trans hc', hu1.trans hu'⟩
                  simp [firstResolvingIn, hres, hn]
                · have : mapGet? (processBill campaigns yr acc b₀) name = none :=
                    processBill_misses campaigns yr acc b₀ name hacc
                      (fun c' hc' => by
                        rw [hres] at hc'; injection hc' with hcc; subst hcc; exact hn)
                  rw [this] at hget1
                  exact absurd hget1 (by simp)
            | none =>
                have : mapGet? (processBill campaigns yr acc b₀) name = none := by
                  rw [processBill_unresolved campaigns yr acc b₀ hres]; exact hacc
                rw [this] at hget1
                exact absurd hget1 (by simp)
      · have hacc : mapGet? acc name = none := by
          cases hacc : mapGet? acc name with
          | none => rfl
          | some e₀ =>
              obtain ⟨e', h', _, _⟩ :=
                processBill_preserves_header campaigns yr acc b₀ name e₀ hacc
              rw [h'] at hnone1
              exact absurd hnone1 (by simp)
        have hnotb : ∀ c', resolveBill campaigns b₀ = some c' → c'.name ≠ name := by
          intro c' hc' hn
          obtain ⟨e', h', _, _⟩ :=
            processBill_creates campaigns yr acc b₀ name c' hacc hc' hn
          rw [h'] at hnone1
          exact absurd hnone1 (by simp)
        refine Or.inr ⟨hacc, b, c, ?_, hcb, hub⟩
        cases hres : resolveBill campaigns b₀ with
        | none => simpa [firstResolvingIn, hres] using hfirst
        | some c₀ =>
            have := hnotb c₀ hres
            simpa [firstResolvingIn, hres, this] using hfirst

theorem processBillsData_header_src (name : String) :
    ∀ (input : List (Nat × YearData)) (acc : List (String × CreatorEntry))
      (e : CreatorEntry),
      mapGet? (input.foldl (fun acc e => processYear e.2.campaigns e.1 acc e.2.bills) acc)
          name = some e →
      (∃ e₀, mapGet? acc name = some e₀ ∧ e.currency = e₀.currency ∧ e.url = e₀.url) ∨
      (mapGet? acc name = none ∧
        ∃ b c, firstResolving name input = some (b, c) ∧
          e.currency = b.attributes.currency ∧ e.url = c.url) := by
  intro input
  induction input with
  | nil => intro acc e h; exact Or.inl ⟨e, h, rfl, rfl⟩
  | cons yd rest ih =>
      intro acc e h
      rcases ih (processYear yd.2.campaigns yd.1 acc yd.2.bills) e h with
        ⟨e₁, hget1, hc1, hu1⟩ | ⟨hnone1, b, c, hfirst, hcb, hub⟩
      · rcases processYear_header_src yd.2.campaigns yd.1 name yd.2.bills acc e₁ hget1 with
          ⟨e₀, hacc, hc0, hu0⟩ | ⟨hacc, b, c, hfirstIn, hcb, hub⟩
        · exact Or.inl ⟨e₀, hacc, hc1.trans hc0, hu1.trans hu0⟩
        · refine Or.inr ⟨hacc, b, c, ?_, hc1.trans hcb, hu1.trans hub⟩
          simp [firstResolving, hfirstIn]
      · obtain ⟨hacc, hfirstIn⟩ :=
          processYear_none yd.2.campaigns yd.1 name yd.2.bills acc hnone1
        refine Or.inr ⟨hacc, b, c, ?_, hcb, hub⟩
        simpa [firstResolving, hfirstIn] using hfirst

/-! ## Sample data for witnesses and counterexamples -/

/-- A bill-typed record with base amount 100 and no tax, campaign `c1`. -/
def sampleBill : Bill := ⟨"bill", some "c1", ⟨some 100, none, "USD"⟩⟩

/-- A full page: exactly `pageSize` bill-typed records. -/
def sampleFullPage : Page := ⟨List.replicate 100 sampleBill, none, some 100⟩

/-- An empty page: no records at all. -/
def sampleEmptyPage : Page := ⟨([] : List Bill), none, none⟩

/-- A short (final) page with 50 bill-typed records. -/
def sampleShortPage : Page := ⟨List.replicate 50 sampleBill, none, none⟩

/-- A page with `pageSize` records of which only 99 are bill-typed. -/
def sampleMixedPage : Page :=
  ⟨List.replicate 99 sampleBill ++ [⟨"address", none, ⟨none, none, ""⟩⟩], none, none⟩

/-! ## Claim C1 -/

/-- Claim C1 (amended): for every year and every response-page sequence
in which each page has exactly `pageSize` bill records except the last
(which has fewer), `fetchYearData` terminates successfully and issues
exactly `total / pageSize + 1` requests; this equals
`ceil(total / pageSize)` whenever the last page is nonempty, but is one
more than `ceil(total / pageSize)` when the last page is empty (i.e. when
`total` is an exact multiple of `pageSize`). -/
theorem claim_C1_fetch_request_count (year : Nat) (front : List Page) (last : Page)
    (hfront : ∀ p ∈ front, (pageBills p).length = pageSize)
    (hlast : (pageBills last).length < pageSize) :
    ∃ ok : FetchOk,
      fetchYearData year ((front ++ [last]).map Response.page) = Except.ok ok ∧
      ok.requests =
        ((front ++ [last]).map (fun p => (pageBills p).length)).sum / pageSize + 1 ∧
      (0 < (pageBills last).length →
        ok.requests =
          (((front ++ [last]).map (fun p => (pageBills p).length)).sum + (pageSize - 1)) /
            pageSize) := by
  have hsum : ((front ++ [last]).map (fun p => (pageBills p).length)).sum =
      pageSize * front.length + (pageBills last).length := by
    rw [List.map_append, List.sum_append, sum_pageBills_full pageSize front hfront]
    simp
  refine ⟨_, fetchYearData_last_short year front last hfront hlast, ?_, ?_⟩
  · show front.length + 1 = _
    rw [hsum]
    simp only [pageSize] at hlast ⊢
    omega
  · intro hpos
    show front.length + 1 = _
    rw [hsum]
    simp only [pageSize] at hlast hpos ⊢
    omega

/-- Witness for claim C1 at a concrete input: one full page of 100 bills
followed by a short page of 50 bills — 2 requests, and
`ceil(150 / 100) = 2`. -/
theorem claim_C1_fetch_request_count_witness :
    ∃ ok : FetchOk,
      fetchYearData 2024 (([sampleFullPage] ++ [sampleShortPage]).map Response.page) =
        Except.ok ok ∧
      ok.requests =
        (([sampleFullPage] ++ [sampleShortPage]).map
          (fun p => (pageBills p).length)).sum / pageSize + 1 ∧
      (0 < (pageBills sampleShortPage).length →
        ok.requests =
          ((([sampleFullPage] ++ [sampleShortPage]).map
            (fun p => (pageBills p).length)).sum + (pageSize - 1)) / pageSize) :=
  claim_C1_fetch_request_count 2024 [sampleFullPage] sampleShortPage
    (by decide) (by decide)

/-- Counterexample to claim C1 as stated: when the record total is an
exact multiple of the page size the response sequence is one full page
(100 records) followed by an empty last page; the claim predicts
`ceil(100 / 100) = 1` request, but `fetchYearData` issues 2. -/
theorem claim_C1_counterexample :
    (∀ p ∈ [sampleFullPage], (pageBills p).length = pageSize) ∧
    (pageBills sampleEmptyPage).length < pageSize ∧
    ([sampleFullPage, sampleEmptyPage].map (fun p => (pageBills p).length)).sum = 100 ∧
    fetchYearData 2023 ([sampleFullPage, sampleEmptyPage].map Response.page) =
      Except.ok ⟨List.replicate 100 sampleBill, [], 2⟩ ∧
    (100 + (pageSize - 1)) / pageSize = 1 ∧ (2 : Nat) ≠ 1 := by
  refine ⟨by decide, by decide, by decide, rfl, by decide, by decide⟩

/-! ## Claim C2 -/

/-- Claim C2: a bill whose creator reference cannot be resolved in the
matching year's creator mapping is skipped without error — removing all
such bills leaves the aggregate unchanged — and the sum of the combined
amounts of all resolvable bills equals the sum of all per-creator
per-year totals of the aggregate. -/
theorem claim_C2_unresolved_skipped_totals (input : List (Nat × YearData)) :
    processBillsData (dropUnresolvable input) = processBillsData input ∧
    aggTotal (processBillsData input) =
      (input.map (fun e => resolvableBillsSum e.2.campaigns e.2.bills)).sum := by
  refine ⟨processBillsData_dropUnresolvable input, ?_⟩
  have h1 := aggTotal_foldYears input []
  have h2 : aggTotal ([] : List (String × CreatorEntry)) = 0 := rfl
  rw [processBillsData, h1, h2, zero_add]
  have h3 : input.map yearContributionSum =
      input.map (fun e => resolvableBillsSum e.2.campaigns e.2.bills) := by
    apply List.map_congr_left
    intro e _
    exact billContribution_sum_eq_resolvable e.2.campaigns e.2.bills
  rw [h3]

/-! ## Claim C3 -/

/-- Claim C3: permuting the bills within any year's fetch result leaves
every per-creator per-year total of the aggregate unchanged. -/
theorem claim_C3_order_independent (input₁ input₂ : List (Nat × YearData))
    (h : List.Forall₂
      (fun a b => a.1 = b.1 ∧ a.2.campaigns = b.2.campaigns ∧
        List.Perm a.2.bills b.2.bills) input₁ input₂)
    (name : String) (y : Nat) :
    creatorYearTotal (processBillsData input₁) name y =
      creatorYearTotal (processBillsData input₂) name y := by
  rw [creatorYearTotal_processBillsData, creatorYearTotal_processBillsData]
  induction h with
  | nil => rfl
  | cons hab hrest ih =>
      rename_i a b l₁ l₂
      simp only [List.map_cons, List.sum_cons, ih]
      congr 1
      obtain ⟨hy, hc, hperm⟩ := hab
      simp only [yearTotalContribution, hy, hc]
      by_cases hyy : y = b.1
      · simp only [hyy, if_pos]
        exact List.Perm.sum_eq (hperm.map _)
      · simp [hyy]

/-- A second bill for the permutation witness. -/
def sampleBill2 : Bill := ⟨"bill", some "c1", ⟨some 200, none, "USD"⟩⟩

/-- The campaign record for campaign id `c1`. -/
def sampleCampaign : Campaign := ⟨"campaign", "c1", "Alice", some "u1"⟩

/-- One-year input with bills in order `[sampleBill, sampleBill2]`. -/
def permInput1 : List (Nat × YearData) :=
  [(2023, ⟨[sampleBill, sampleBill2], [("c1", sampleCampaign)]⟩)]

/-- The same input with the two bills swapped. -/
def permInput2 : List (Nat × YearData) :=
  [(2023, ⟨[sampleBill2, sampleBill], [("c1", sampleCampaign)]⟩)]

/-- Witness for claim C3 at a concrete input: swapping two bills of the
same year leaves the creator's 2023 total (300) unchanged. -/
theorem claim_C3_order_independent_witness :
    creatorYearTotal (processBillsData permInput1) "Alice" 2023 =
      creatorYearTotal (processBillsData permInput2) "Alice" 2023 ∧
    creatorYearTotal (processBillsData permInput1) "Alice" 2023 = 300 :=
  ⟨claim_C3_order_independent permInput1 permInput2
      (List.Forall₂.cons ⟨rfl, rfl, List.Perm.swap sampleBill2 sampleBill []⟩
        List.Forall₂.nil) "Alice" 2023,
    by decide⟩

/-! ## Claim C4 -/

/-- Claim C4: for every minor-unit amount and every currency code the
locale formatter does not recognize, `formatCurrency` does not propagate
the error: the `catch` branch returns
`"<CODE> <amount/100 to 2 decimals>"`; in particular
`formatCurrency 250 "ZZZ" = "ZZZ 2.50"`. -/
theorem claim_C4_unknown_currency_fallback (amountCents : Int) (currency : String)
    (h : intlFractionDigits currency = none) :
    formatCurrency amountCents currency =
      currency ++ " " ++ toFixedTwoOfCents amountCents ∧
    formatCurrency 250 "ZZZ" = "ZZZ 2.50" := by
  constructor
  · simp [formatCurrency, h]
  · rfl

/-- Witness for claim C4 at the concrete input `(250, "ZZZ")`. -/
theorem claim_C4_unknown_currency_fallback_witness :
    (formatCurrency 250 "ZZZ" = "ZZZ" ++ " " ++ toFixedTwoOfCents 250 ∧
      formatCurrency 250 "ZZZ" = "ZZZ 2.50") ∧
    intlFractionDigits "ZZZ" = none :=
  ⟨claim_C4_unknown_currency_fallback 250 "ZZZ" rfl, rfl⟩

/-! ## Claim C5 -/

/-- Claim C5: a transport failure or non-success HTTP status on any page
request makes `fetchYearData` fail immediately for that year with an
error carrying the year and the failing offset; no partial result is
returned and the responses after the failure are never consulted (no
retry): the outcome is the same for every continuation `rest`. -/
theorem claim_C5_fetch_error_aborts (year : Nat) (front : List Page)
    (hfront : ∀ p ∈ front, (pageBills p).length = pageSize)
    (msg : String) (rest : List Response) :
    fetchYearData year (front.map Response.page ++ Response.error msg :: rest) =
      Except.error ⟨year, pageSize * front.length, msg⟩ :=
  fetchYearData_error_after_full year front hfront msg rest

/-- Witness for claim C5 at a concrete input: the second request fails
with HTTP 500 after one full page; the fetch fails with year 2023 and
offset 100 even though further responses were available. -/
theorem claim_C5_fetch_error_aborts_witness :
    fetchYearData 2023
        ([sampleFullPage].map Response.page ++
          Response.error "HTTP 500: Internal Server Error" ::
            [Response.page sampleShortPage]) =
      Except.error ⟨2023, pageSize * [sampleFullPage].length,
        "HTTP 500: Internal Server Error"⟩ :=
  claim_C5_fetch_error_aborts 2023 [sampleFullPage] (by decide)
    "HTTP 500: Internal Server Error" [Response.page sampleShortPage]

/-! ## Claim C6 -/

/-- Aggregate with totals in input order [500, 1500, 300]. -/
def exampleCreatorData : List (String × CreatorEntry) :=
  [("A", ⟨"A", [(2023, 500)], "USD", none⟩),
   ("B", ⟨"B", [(2023, 1500)], "USD", none⟩),
   ("C", ⟨"C", [(2023, 300)], "USD", none⟩)]

/-- Claim C6: the data rows of the rendered report are the creators
sorted by total spend in descending order, rows with equal totals keeping
their input order (stable), and the rendered rows are exactly the sorted
array mapped to rows; for input totals [500, 1500, 300] the row order is
[1500, 500, 300]. -/
theorem claim_C6_rows_sorted_desc_stable
    (creatorData : List (String × CreatorEntry)) (years : List Nat) :
    List.Perm (sortRowsDesc (creatorsArray creatorData years))
      (creatorsArray creatorData years) ∧
    (sortRowsDesc (creatorsArray creatorData years)).Pairwise
      (fun a b => b.totalAmountCents ≤ a.totalAmountCents) ∧
    (∀ t : Int,
      (sortRowsDesc (creatorsArray creatorData years)).filter
          (fun r => decide (r.totalAmountCents = t)) =
        (creatorsArray creatorData years).filter
          (fun r => decide (r.totalAmountCents = t))) ∧
    csvRows creatorData years =
      csvHeaders (sortYearsDesc years) ::
        (sortRowsDesc (creatorsArray creatorData years)).map
          (creatorRow (sortYearsDesc years)) ∧
    (sortRowsDesc (creatorsArray exampleCreatorData [2023])).map
      (fun r => r.totalAmountCents) = [1500, 500, 300] :=
  ⟨sortRowsDesc_perm _, sortRowsDesc_pairwise _,
    fun t => sortRowsDesc_stable _ t, rfl, by decide⟩

/-! ## Claim C7 -/

/-- Claim C7: whatever order the requested years are supplied in, the
per-year columns of every data row follow `sortYearsDesc years`, which is
a strictly descending permutation of the requested years (when they are
distinct), and a year with no recorded spend for a creator is rendered as
the formatted amount 0. -/
theorem claim_C7_year_columns_desc (years : List Nat) (hnd : years.Nodup) :
    List.Perm (sortYearsDesc years) years ∧
    (sortYearsDesc years).Pairwise (fun a b => a > b) ∧
    (∀ c : CreatorRow, creatorRow (sortYearsDesc years) c =
      [c.name, c.currency, c.url.getD "",
        formatCurrency c.totalAmountCents c.currency] ++
        (sortYearsDesc years).map (yearColumn c)) ∧
    (∀ (c : CreatorRow) (y : Nat), mapGet? c.yearlySpends y = none →
      yearColumn c y = formatCurrency 0 c.currency) := by
  refine ⟨sortYearsDesc_perm years, sortYearsDesc_strict years hnd,
    fun c => rfl, ?_⟩
  intro c y h
  simp [yearColumn, h, jsOrZero]

/-- Witness for claim C7 at the concrete year list [2020, 2023, 2021]
(sorted: [2023, 2021, 2020]) and a creator with no 2021 spend. -/
theorem claim_C7_year_columns_desc_witness :
    (List.Perm (sortYearsDesc [2020, 2023, 2021]) [2020, 2023, 2021] ∧
      (sortYearsDesc [2020, 2023, 2021]).Pairwise (fun a b => a > b) ∧
      yearColumn ⟨"A", [(2023, 100)], "USD", none, 100⟩ 2021 =
        formatCurrency 0 "USD") ∧
    sortYearsDesc [2020, 2023, 2021] = [2023, 2021, 2020] := by
  have h := claim_C7_year_columns_desc [2020, 2023, 2021] (by decide)
  exact ⟨⟨h.1, h.2.1, h.2.2.2 ⟨"A", [(2023, 100)], "USD", none, 100⟩ 2021 rfl⟩,
    by decide⟩

/-! ## Claim C8 -/

/-- One-year, one-bill input: base 100, tax absent. -/
def singleBillInput : List (Nat × YearData) :=
  [(2023, ⟨[sampleBill], [("c1", sampleCampaign)]⟩)]

/-- Claim C8: every bill's combined amount is its base amount plus its
tax amount with absent components treated as 0; with the tax amount
absent only the base remains, and a bill with base 100 and absent tax
contributes exactly 100 to its creator's 2023 total. -/
theorem claim_C8_combined_amount (attrs : BillAttributes)
    (htax : attrs.vat_charge_amount_cents = none) :
    combinedAmount attrs =
      jsOrZero attrs.amount_cents + jsOrZero attrs.vat_charge_amount_cents ∧
    combinedAmount attrs = jsOrZero attrs.amount_cents ∧
    creatorYearTotal (processBillsData singleBillInput) "Alice" 2023 = 100 := by
  refine ⟨rfl, ?_, by decide⟩
  simp [combinedAmount, htax, jsOrZero]

/-- Witness for claim C8 at the concrete attributes (base 100, tax
absent). -/
theorem claim_C8_combined_amount_witness :
    (combinedAmount ⟨some 100, none, "USD"⟩ =
        jsOrZero (some 100) + jsOrZero (none : Option Int) ∧
      combinedAmount ⟨some 100, none, "USD"⟩ = jsOrZero (some 100) ∧
      creatorYearTotal (processBillsData singleBillInput) "Alice" 2023 = 100) ∧
    jsOrZero (some (100 : Int)) = 100 :=
  ⟨claim_C8_combined_amount ⟨some 100, none, "USD"⟩ rfl, rfl⟩

/-! ## Claim C9 -/

/-- Claim C9: whenever the aggregate holds an entry for a creator name,
that entry's currency and URL are those of the first bill (in processing
order) that resolved to this creator — later bills never overwrite
them. -/
theorem claim_C9_first_seen_header (input : List (Nat × YearData)) (name : String)
    (e : CreatorEntry)
    (h : mapGet? (processBillsData input) name = some e) :
    ∃ b c, firstResolving name input = some (b, c) ∧
      e.currency = b.attributes.currency ∧ e.url = c.url := by
  rcases processBillsData_header_src name input [] e h with
    ⟨e₀, h₀, _, _⟩ | ⟨_, b, c, hf, hc, hu⟩
  · exact absurd h₀ (by simp [mapGet?])
  · exact ⟨b, c, hf, hc, hu⟩

/-- A second bill for the same creator carrying a different currency and
resolving through a campaign with a different URL. -/
def conflictBill : Bill := ⟨"bill", some "c2", ⟨some 200, none, "EUR"⟩⟩

/-- A second campaign with the same display name but a different URL. -/
def conflictCampaign : Campaign := ⟨"campaign", "c2", "Alice", some "u2"⟩

/-- Input whose second bill carries a different currency ("EUR") and URL
("u2") for the same creator. -/
def conflictInput : List (Nat × YearData) :=
  [(2023, ⟨[sampleBill, conflictBill],
    [("c1", sampleCampaign), ("c2", conflictCampaign)]⟩)]

/-- Witness for claim C9 at a concrete input: the stored entry keeps the
first bill's currency "USD" and URL "u1" although a later bill for the
same creator carries "EUR" and "u2". -/
theorem claim_C9_first_seen_header_witness :
    (∃ b c, firstResolving "Alice" conflictInput = some (b, c) ∧
      (CreatorEntry.mk "Alice" [(2023, 300)] "USD" (some "u1")).currency =
        b.attributes.currency ∧
      (CreatorEntry.mk "Alice" [(2023, 300)] "USD" (some "u1")).url = c.url) ∧
    conflictBill.attributes.currency = "EUR" ∧ conflictCampaign.url = some "u2" :=
  ⟨claim_C9_first_seen_header conflictInput "Alice"
      ⟨"Alice", [(2023, 300)], "USD", some "u1"⟩ (by decide),
    rfl, rfl⟩

/-! ## Claim C10 -/

/-- Claim C10: the end-of-data test counts only the bill-typed records of
a page's `data` array: a page whose `data` holds `pageSize` records of
which fewer than `pageSize` are bill-typed terminates the year's
pagination at once (whatever responses would follow), and only the
bill-typed records are accumulated. -/
theorem claim_C10_bill_typed_count (year : Nat) (p : Page) (rest : List Response)
    (_hdata : p.data.length = pageSize)
    (hbills : (pageBills p).length < pageSize) :
    fetchYearData year (Response.page p :: rest) =
      Except.ok ⟨pageBills p, addCampaigns [] p, 1⟩ := by
  unfold fetchYearData
  simp only [fetchGo]
  rw [if_pos hbills]
  simp

/-- Witness for claim C10 at a concrete input: a page of 100 records of
which 99 are bill-typed stops pagination after one request and keeps
only the 99 bill records. -/
theorem claim_C10_bill_typed_count_witness :
    fetchYearData 2023 [Response.page sampleMixedPage] =
      Except.ok ⟨pageBills sampleMixedPage, addCampaigns [] sampleMixedPage, 1⟩ ∧
    sampleMixedPage.data.length = 100 ∧ (pageBills sampleMixedPage).length = 99 :=
  ⟨claim_C10_bill_typed_count 2023 sampleMixedPage [] (by decide) (by decide),
    by decide, by decide⟩

end PatreonExporter
